import Mathlib

/-!
Shallow embedding of the `universal-inserter` crate: a write-buffering
component (`Inserter`) that accumulates items and flushes them in batches
through a caller-supplied sink, triggered by a row-count threshold
(`max_rows`) or an elapsed-time deadline (`Ticks`).

Modelling choices, all mirrored from the Rust source:
* `u64` counters are modelled as `Nat` (the claims do not involve overflow);
  the default `max_rows` of `u64::MAX` is the literal `2 ^ 64 - 1`.
* `Instant`/`Duration` are modelled as `ℚ`; the current wall-clock time
  (`Instant::now()`) is passed explicitly as a `now` argument to each
  operation that reads the clock.
* The random jitter sample drawn in `Ticks::apply_bias` (uniform in
  `[-bias, bias]` under the `period_bias` feature) is passed explicitly as a
  `u` argument; the `f64` arithmetic of `apply_bias` is modelled exactly
  over `ℚ`.
* The caller-supplied asynchronous sink `insert_fn : FnMut(Vec<T>) -> Fut`
  is modelled as a pure function `List T → Except E Unit` passed to each
  flushing operation; the optional commit callback is modelled by a
  presence flag `on_commit` on the state.  Invocations of both are recorded
  in explicit event logs (`sink_calls`, `observer_calls`) in the operation
  outcome, in the order the Rust code performs them.
-/

/-- `Quantities` from `src/quantities.rs`: rows and logical transactions. -/
structure Quantities where
  rows : Nat
  transactions : Nat
deriving Repr, DecidableEq

/-- `Quantities::ZERO`. -/
def Quantities.ZERO : Quantities := ⟨0, 0⟩

/-- `Quantities::is_empty`: `rows == 0`. -/
def Quantities.is_empty (q : Quantities) : Bool := q.rows == 0

/-- Componentwise addition, as performed field by field at the call sites
(`committed.rows += flushed.rows; committed.transactions += flushed.transactions`). -/
instance : Add Quantities := ⟨fun a b => ⟨a.rows + b.rows, a.transactions + b.transactions⟩⟩

theorem Quantities.add_def (a b : Quantities) :
    a + b = ⟨a.rows + b.rows, a.transactions + b.transactions⟩ := rfl

@[simp] theorem Quantities.add_rows (a b : Quantities) : (a + b).rows = a.rows + b.rows := rfl

@[simp] theorem Quantities.add_transactions (a b : Quantities) :
    (a + b).transactions = a.transactions + b.transactions := rfl

@[simp] theorem Quantities.zero_add (q : Quantities) : Quantities.ZERO + q = q := by
  cases q; simp [Quantities.add_def, Quantities.ZERO]

@[simp] theorem Quantities.add_zero (q : Quantities) : q + Quantities.ZERO = q := by
  cases q; simp [Quantities.add_def, Quantities.ZERO]

theorem Quantities.add_assoc (a b c : Quantities) : a + b + c = a + (b + c) := by
  simp [Quantities.add_def, Nat.add_assoc]

/-- `Ticks` from `src/ticks.rs`: optional period, jitter bias
(`period_bias` feature; `0` in the default build), optional armed deadline. -/
structure Ticks where
  period : Option ℚ
  bias : ℚ
  next_at : Option ℚ
deriving Repr, DecidableEq

/-- `Ticks::new`. -/
def Ticks.new : Ticks := ⟨none, 0, none⟩

/-- `Ticks::with_period`. -/
def Ticks.with_period (t : Ticks) (p : ℚ) : Ticks := { t with period := some p }

/-- `Ticks::with_bias` (under the `period_bias` feature). -/
def Ticks.with_bias (t : Ticks) (b : ℚ) : Ticks := { t with bias := b }

/-- `Ticks::apply_bias`: with bias `0` (also the non-feature build) the
period is returned unchanged; otherwise the effective period is
`period * (1 + u)` where `u` is the random sample from `[-bias, bias]`,
passed here as an explicit argument. -/
def Ticks.apply_bias (bias period u : ℚ) : ℚ :=
  if bias = 0 then period else period * (1 + u)

/-- `Ticks::reschedule`: if a period is configured, set
`next_at = now + apply_bias(period)`; otherwise do nothing. -/
def Ticks.reschedule (t : Ticks) (now u : ℚ) : Ticks :=
  match t.period with
  | some p => { t with next_at := some (now + Ticks.apply_bias t.bias p u) }
  | none => t

/-- `Ticks::start`: reschedule only if a period is configured and no
deadline is currently armed. -/
def Ticks.start (t : Ticks) (now u : ℚ) : Ticks :=
  if t.period.isSome && t.next_at.isNone then t.reschedule now u else t

/-- `Ticks::reached`: true iff a deadline is armed and `now` is at or past it. -/
def Ticks.reached (t : Ticks) (now : ℚ) : Bool :=
  match t.next_at with
  | some n => decide (n ≤ now)
  | none => false

/-- `Ticks::time_left`: `Some(max(next_at - now, 0))` if armed, else `None`. -/
def Ticks.time_left (t : Ticks) (now : ℚ) : Option ℚ :=
  t.next_at.map (fun n => if n ≤ now then 0 else n - now)

/-- `InserterError<E>` from `src/error.rs`: wraps the sink's failure value. -/
structure InserterError (E : Type) where
  source : E
deriving Repr, DecidableEq

/-- `InserterError::new`. -/
def InserterError.new {E : Type} (e : E) : InserterError E := ⟨e⟩

/-- `InserterError::into_inner`. -/
def InserterError.into_inner {E : Type} (err : InserterError E) : E := err.source

/-- The `Inserter` state from `src/inserter.rs`.  The sink `insert_fn` is
passed as an explicit argument to the flushing operations; the optional
commit callback is represented by the presence flag `on_commit`. -/
structure Inserter (T : Type) where
  max_rows : Nat
  buffer : List T
  ticks : Ticks
  pending : Quantities
  committed : Quantities
  in_transaction : Bool
  on_commit : Bool
deriving Repr, DecidableEq

/-- `Inserter::new`: empty buffer, `max_rows = u64::MAX`, fresh `Ticks`,
zero quantities, no open transaction, no callback. -/
def Inserter.new {T : Type} : Inserter T :=
  { max_rows := 2 ^ 64 - 1
    buffer := []
    ticks := Ticks.new
    pending := Quantities.ZERO
    committed := Quantities.ZERO
    in_transaction := false
    on_commit := false }

/-- `Inserter::with_max_rows`. -/
def Inserter.with_max_rows {T : Type} (s : Inserter T) (n : Nat) : Inserter T :=
  { s with max_rows := n }

/-- `Inserter::with_period`. -/
def Inserter.with_period {T : Type} (s : Inserter T) (p : ℚ) : Inserter T :=
  { s with ticks := s.ticks.with_period p }

/-- `Inserter::with_period_bias` (under the `period_bias` feature). -/
def Inserter.with_period_bias {T : Type} (s : Inserter T) (b : ℚ) : Inserter T :=
  { s with ticks := s.ticks.with_bias b }

/-- `Inserter::with_commit_callback`: records that a callback is configured. -/
def Inserter.with_commit_callback {T : Type} (s : Inserter T) : Inserter T :=
  { s with on_commit := true }

/-- `Inserter::limits_reached`: `pending.rows >= max_rows || ticks.reached()`. -/
def Inserter.limits_reached {T : Type} (s : Inserter T) (now : ℚ) : Bool :=
  decide (s.max_rows ≤ s.pending.rows) || s.ticks.reached now

/-- `Inserter::write_owned`: start the deadline if needed, append the item,
bump `pending.rows`, and open a transaction (bumping
`pending.transactions`) if none is open. -/
def Inserter.write_owned {T : Type} (s : Inserter T) (item : T) (now u : ℚ) : Inserter T :=
  let s1 := { s with ticks := s.ticks.start now u }
  let s2 := { s1 with
    buffer := s1.buffer ++ [item]
    pending := { s1.pending with rows := s1.pending.rows + 1 } }
  if s2.in_transaction then s2
  else { s2 with
    pending := { s2.pending with transactions := s2.pending.transactions + 1 }
    in_transaction := true }

/-- Outcome of one flushing operation: the returned value, the successor
state, and the logs of sink and observer invocations made during the call
(in execution order). -/
structure FlushOutcome (T E : Type) where
  result : Except (InserterError E) Quantities
  state : Inserter T
  sink_calls : List (List T)
  observer_calls : List Quantities

/-- `Inserter::flush`: on an empty buffer return `ZERO` immediately.
Otherwise take the whole buffer (leaving it empty), capture `pending` as
the flushed amount, and call the sink with the batch.  On failure the
wrapped error propagates with no further state change; on success fold the
flushed amount into `committed`, reset `pending`, clear `in_transaction`,
and invoke the observer (if configured) with the flushed amount. -/
def Inserter.flush {T E : Type} (s : Inserter T) (sink : List T → Except E Unit) :
    FlushOutcome T E :=
  if s.buffer.isEmpty then
    { result := .ok Quantities.ZERO, state := s, sink_calls := [], observer_calls := [] }
  else
    let batch := s.buffer
    let taken := { s with buffer := [] }
    let flushed := s.pending
    match sink batch with
    | .error e =>
      { result := .error (InserterError.new e), state := taken
        sink_calls := [batch], observer_calls := [] }
    | .ok _ =>
      { result := .ok flushed
        state := { taken with
          committed := { rows := taken.committed.rows + flushed.rows
                         transactions := taken.committed.transactions + flushed.transactions }
          pending := Quantities.ZERO
          in_transaction := false }
        sink_calls := [batch]
        observer_calls := if s.on_commit then [flushed] else [] }

/-- `Inserter::force_commit`: flush unconditionally; on success reschedule
the `Ticks` deadline; on failure propagate the error without rescheduling
(the `?` operator returns early). -/
def Inserter.force_commit {T E : Type} (s : Inserter T) (sink : List T → Except E Unit)
    (now u : ℚ) : FlushOutcome T E :=
  let o := s.flush sink
  match o.result with
  | .error _ => o
  | .ok _ => { o with state := { o.state with ticks := o.state.ticks.reschedule now u } }

/-- `Inserter::commit`: if limits are not reached, close the transaction
flag and return `ZERO` without flushing; otherwise behave as
`force_commit`. -/
def Inserter.commit {T E : Type} (s : Inserter T) (sink : List T → Except E Unit)
    (now u : ℚ) : FlushOutcome T E :=
  if !s.limits_reached now then
    { result := .ok Quantities.ZERO, state := { s with in_transaction := false }
      sink_calls := [], observer_calls := [] }
  else
    s.force_commit sink now u

/-- `Inserter::end`: one final flush (errors propagate), then return the
cumulative `committed` quantities. -/
def Inserter.«end» {T E : Type} (s : Inserter T) (sink : List T → Except E Unit) :
    FlushOutcome T E :=
  let o := s.flush sink
  match o.result with
  | .error e => { o with result := .error e }
  | .ok _ => { o with result := .ok o.state.committed }

/-- `Inserter::pending`: read-only accessor. -/
def Inserter.pending_q {T : Type} (s : Inserter T) : Quantities := s.pending

/-- `Inserter::time_left`: delegates to `Ticks`. -/
def Inserter.time_left {T : Type} (s : Inserter T) (now : ℚ) : Option ℚ :=
  s.ticks.time_left now

/-- A configured `Inserter`: `Inserter::new` followed by the optional
builder calls (`with_max_rows`, `with_period`, `with_period_bias`,
`with_commit_callback`). -/
def Inserter.configured {T : Type} (n : Nat) (p : Option ℚ) (b : ℚ) (cb : Bool) : Inserter T :=
  let s := (Inserter.new (T := T)).with_max_rows n
  let s := match p with
    | some q => s.with_period q
    | none => s
  let s := (s.with_period_bias b)
  if cb then s.with_commit_callback else s

/-- Fold a sequence of `write_owned` calls over an `Inserter` state
(the clock value and jitter sample are the same for every write; they are
irrelevant unless a period is configured). -/
def runWrites {T : Type} (s : Inserter T) (items : List T) (now u : ℚ) : Inserter T :=
  match items with
  | [] => s
  | it :: rest => runWrites (s.write_owned it now u) rest now u

/-- One operation of the mutable `Inserter` interface, carrying the sink
and the clock/jitter inputs it consumes. -/
inductive InsOp (T E : Type) where
  | write (item : T) (now u : ℚ)
  | commit (sink : List T → Except E Unit) (now u : ℚ)
  | force_commit (sink : List T → Except E Unit) (now u : ℚ)
  | flush (sink : List T → Except E Unit)

/-- Successor state of one operation (on flushing operations, the state of
the `FlushOutcome`, whether it succeeded or failed). -/
def stepState {T E : Type} (s : Inserter T) : InsOp T E → Inserter T
  | .write it now u => s.write_owned it now u
  | .commit sink now u => (s.commit sink now u).state
  | .force_commit sink now u => (s.force_commit sink now u).state
  | .flush sink => (s.flush sink).state

/-- The quantities successfully flushed by one operation (empty on writes
and on failed flushes). -/
def stepFlushed {T E : Type} (s : Inserter T) : InsOp T E → List Quantities
  | .write _ _ _ => []
  | .commit sink now u =>
    match (s.commit sink now u).result with
    | .ok q => [q]
    | .error _ => []
  | .force_commit sink now u =>
    match (s.force_commit sink now u).result with
    | .ok q => [q]
    | .error _ => []
  | .flush sink =>
    match (s.flush sink).result with
    | .ok q => [q]
    | .error _ => []

/-- Run a sequence of operations from a state. -/
def runIns {T E : Type} (s : Inserter T) : List (InsOp T E) → Inserter T
  | [] => s
  | op :: ops => runIns (stepState s op) ops

/-- The quantities of every successful flush performed during a run, in
order. -/
def runFlushed {T E : Type} (s : Inserter T) : List (InsOp T E) → List Quantities
  | [] => []
  | op :: ops => stepFlushed s op ++ runFlushed (stepState s op) ops

/-- Sum of a list of `Quantities`, componentwise. -/
def sumQ : List Quantities → Quantities
  | [] => Quantities.ZERO
  | q :: l => q + sumQ l

/-- One operation of the `Ticks` interface. -/
inductive TOp where
  | with_period (p : ℚ)
  | with_bias (b : ℚ)
  | start (now u : ℚ)
  | reschedule (now u : ℚ)

/-- Apply one `Ticks` operation. -/
def stepTicks (t : Ticks) : TOp → Ticks
  | .with_period p => t.with_period p
  | .with_bias b => t.with_bias b
  | .start now u => t.start now u
  | .reschedule now u => t.reschedule now u

/-- Run a sequence of `Ticks` operations from `Ticks::new`. -/
def runTicks (ops : List TOp) : Ticks :=
  ops.foldl stepTicks Ticks.new

/-! ### Concrete fixtures used by the witness theorems -/

/-- A sink that always fails with error code `7`. -/
def wSinkErr : List Nat → Except Nat Unit := fun _ => .error 7

/-- A sink that always succeeds. -/
def wSinkOk : List Nat → Except Nat Unit := fun _ => .ok ()

/-- A small `Inserter` state holding one buffered item of one transaction. -/
def wState1 : Inserter Nat :=
  { Inserter.new (T := Nat) with buffer := [5], pending := ⟨1, 1⟩, in_transaction := true }

/-- Like `wState1` but with `max_rows = 1`, so the row limit is reached. -/
def wState2 : Inserter Nat :=
  { Inserter.new (T := Nat) with
      max_rows := 1, buffer := [5], pending := ⟨1, 1⟩, in_transaction := true }

/-- Like `wState1` but with a commit callback configured and some
previously committed totals. -/
def wState3 : Inserter Nat :=
  { Inserter.new (T := Nat) with
      buffer := [5, 6], pending := ⟨2, 1⟩, committed := ⟨4, 3⟩,
      in_transaction := true, on_commit := true }

/-- The state after writing two items into a fresh inserter with
`max_rows = 2` and no period. -/
def wRun3 : Inserter Nat :=
  runWrites ((Inserter.new (T := Nat)).with_max_rows 2) [10, 20] 0 0

/-- A small operation trace: two writes. -/
def wOps : List (InsOp Nat Nat) := [.write 1 0 0, .write 2 0 0]

/-- The state after running `wOps` on a fresh inserter with `max_rows = 10`. -/
def wRun5 : Inserter Nat := runIns (Inserter.configured 10 none 0 false) wOps

/-! ### Helper lemmas -/

theorem Ticks.start_of_period_none {t : Ticks} (h : t.period = none) (now u : ℚ) :
    t.start now u = t := by
  simp [Ticks.start, h]

@[simp] theorem write_owned_buffer {T : Type} (s : Inserter T) (it : T) (now u : ℚ) :
    (s.write_owned it now u).buffer = s.buffer ++ [it] := by
  cases h : s.in_transaction <;> simp [Inserter.write_owned, h]

@[simp] theorem write_owned_rows {T : Type} (s : Inserter T) (it : T) (now u : ℚ) :
    (s.write_owned it now u).pending.rows = s.pending.rows + 1 := by
  cases h : s.in_transaction <;> simp [Inserter.write_owned, h]

@[simp] theorem write_owned_committed {T : Type} (s : Inserter T) (it : T) (now u : ℚ) :
    (s.write_owned it now u).committed = s.committed := by
  cases h : s.in_transaction <;> simp [Inserter.write_owned, h]

@[simp] theorem write_owned_max_rows {T : Type} (s : Inserter T) (it : T) (now u : ℚ) :
    (s.write_owned it now u).max_rows = s.max_rows := by
  cases h : s.in_transaction <;> simp [Inserter.write_owned, h]

@[simp] theorem write_owned_on_commit {T : Type} (s : Inserter T) (it : T) (now u : ℚ) :
    (s.write_owned it now u).on_commit = s.on_commit := by
  cases h : s.in_transaction <;> simp [Inserter.write_owned, h]

@[simp] theorem write_owned_ticks {T : Type} (s : Inserter T) (it : T) (now u : ℚ) :
    (s.write_owned it now u).ticks = s.ticks.start now u := by
  cases h : s.in_transaction <;> simp [Inserter.write_owned, h]

theorem write_owned_in_transaction {T : Type} (s : Inserter T) (it : T) (now u : ℚ) :
    (s.write_owned it now u).in_transaction = true := by
  cases h : s.in_transaction <;> simp [Inserter.write_owned, h]

theorem write_owned_transactions_of_in {T : Type} (s : Inserter T) (it : T) (now u : ℚ)
    (h : s.in_transaction = true) :
    (s.write_owned it now u).pending.transactions = s.pending.transactions := by
  simp [Inserter.write_owned, h]

theorem write_owned_transactions_of_not_in {T : Type} (s : Inserter T) (it : T) (now u : ℚ)
    (h : s.in_transaction = false) :
    (s.write_owned it now u).pending.transactions = s.pending.transactions + 1 := by
  simp [Inserter.write_owned, h]

theorem runWrites_buffer {T : Type} (items : List T) (s : Inserter T) (now u : ℚ) :
    (runWrites s items now u).buffer = s.buffer ++ items := by
  induction items generalizing s with
  | nil => simp [runWrites]
  | cons it rest ih => simp [runWrites, ih, List.append_assoc]

theorem runWrites_rows {T : Type} (items : List T) (s : Inserter T) (now u : ℚ) :
    (runWrites s items now u).pending.rows = s.pending.rows + items.length := by
  induction items generalizing s with
  | nil => simp [runWrites]
  | cons it rest ih => simp [runWrites, ih]; omega

theorem runWrites_committed {T : Type} (items : List T) (s : Inserter T) (now u : ℚ) :
    (runWrites s items now u).committed = s.committed := by
  induction items generalizing s with
  | nil => simp [runWrites]
  | cons it rest ih => simp [runWrites, ih]

theorem runWrites_max_rows {T : Type} (items : List T) (s : Inserter T) (now u : ℚ) :
    (runWrites s items now u).max_rows = s.max_rows := by
  induction items generalizing s with
  | nil => simp [runWrites]
  | cons it rest ih => simp [runWrites, ih]

theorem runWrites_ticks_of_period_none {T : Type} (items : List T) (s : Inserter T)
    (now u : ℚ) (h : s.ticks.period = none) :
    (runWrites s items now u).ticks = s.ticks := by
  induction items generalizing s with
  | nil => simp [runWrites]
  | cons it rest ih =>
    have hs : (s.write_owned it now u).ticks = s.ticks := by
      rw [write_owned_ticks, Ticks.start_of_period_none h]
    have hp : (s.write_owned it now u).ticks.period = none := by rw [hs]; exact h
    show (runWrites (s.write_owned it now u) rest now u).ticks = s.ticks
    rw [ih _ hp, hs]

theorem runWrites_transactions_of_in {T : Type} (items : List T) (s : Inserter T)
    (now u : ℚ) (h : s.in_transaction = true) :
    (runWrites s items now u).pending.transactions = s.pending.transactions ∧
      (runWrites s items now u).in_transaction = true := by
  induction items generalizing s with
  | nil => simpa [runWrites]
  | cons it rest ih =>
    have h1 := write_owned_transactions_of_in s it now u h
    have h2 := write_owned_in_transaction s it now u
    simpa [runWrites, h1] using ih _ h2

theorem buffer_isEmpty_false {T : Type} {l : List T} (h : l ≠ []) : l.isEmpty = false := by
  cases l with
  | nil => exact absurd rfl h
  | cons a t => rfl

/-- Full characterisation of `Inserter::flush` on an empty buffer: return
`ZERO` immediately, no sink or observer call, state untouched. -/
theorem flush_empty_outcome {T E : Type} (s : Inserter T) (sink : List T → Except E Unit)
    (hb : s.buffer = []) :
    s.flush sink =
      { result := .ok Quantities.ZERO, state := s, sink_calls := [], observer_calls := [] } := by
  simp [Inserter.flush, hb]

/-- Full characterisation of `Inserter::flush` when the sink fails: the
wrapped error is returned, the sink was called once with the whole buffer,
the observer was not called, and the state is exactly the state at the
moment the sink was invoked — the buffer already taken (empty), all other
fields untouched. -/
theorem flush_error_outcome {T E : Type} (s : Inserter T) (sink : List T → Except E Unit)
    (e : E) (hb : s.buffer ≠ []) (he : sink s.buffer = .error e) :
    s.flush sink =
      { result := .error (InserterError.new e), state := { s with buffer := [] },
        sink_calls := [s.buffer], observer_calls := [] } := by
  simp [Inserter.flush, buffer_isEmpty_false hb, he]

/-- Full characterisation of `Inserter::flush` when the buffer is non-empty
and the sink succeeds. -/
theorem flush_ok_outcome {T E : Type} (s : Inserter T) (sink : List T → Except E Unit)
    (hb : s.buffer ≠ []) (hok : sink s.buffer = .ok ()) :
    s.flush sink =
      { result := .ok s.pending,
        state := { s with
                     buffer := [], committed := s.committed + s.pending,
                     pending := Quantities.ZERO, in_transaction := false },
        sink_calls := [s.buffer],
        observer_calls := if s.on_commit then [s.pending] else [] } := by
  simp [Inserter.flush, buffer_isEmpty_false hb, hok, Quantities.add_def]

/-- `force_commit` when the sink fails: identical to the failed flush (the
`?` operator returns before `reschedule` runs). -/
theorem force_commit_error_outcome {T E : Type} (s : Inserter T)
    (sink : List T → Except E Unit) (e : E) (now u : ℚ) (hb : s.buffer ≠ [])
    (he : sink s.buffer = .error e) :
    s.force_commit sink now u =
      { result := .error (InserterError.new e), state := { s with buffer := [] },
        sink_calls := [s.buffer], observer_calls := [] } := by
  simp [Inserter.force_commit, flush_error_outcome s sink e hb he]

/-- `force_commit` when the buffer is non-empty and the sink succeeds:
the successful flush followed by a `Ticks` reschedule. -/
theorem force_commit_ok_outcome {T E : Type} (s : Inserter T)
    (sink : List T → Except E Unit) (now u : ℚ) (hb : s.buffer ≠ [])
    (hok : sink s.buffer = .ok ()) :
    s.force_commit sink now u =
      { result := .ok s.pending,
        state := { s with
                     buffer := [], committed := s.committed + s.pending,
                     pending := Quantities.ZERO, in_transaction := false,
                     ticks := s.ticks.reschedule now u },
        sink_calls := [s.buffer],
        observer_calls := if s.on_commit then [s.pending] else [] } := by
  simp [Inserter.force_commit, flush_ok_outcome s sink hb hok]

/-- `commit` when limits are not reached: close the transaction flag,
return `ZERO`, touch nothing else. -/
theorem commit_noop_outcome {T E : Type} (s : Inserter T)
    (sink : List T → Except E Unit) (now u : ℚ) (hl : s.limits_reached now = false) :
    s.commit sink now u =
      { result := .ok Quantities.ZERO, state := { s with in_transaction := false },
        sink_calls := [], observer_calls := [] } := by
  simp [Inserter.commit, hl]

/-- `commit` when limits are reached is exactly `force_commit`. -/
theorem commit_forced {T E : Type} (s : Inserter T) (sink : List T → Except E Unit)
    (now u : ℚ) (hl : s.limits_reached now = true) :
    s.commit sink now u = s.force_commit sink now u := by
  simp [Inserter.commit, hl]

/-- `end` when the sink fails: the failed flush outcome. -/
theorem end_error_outcome {T E : Type} (s : Inserter T) (sink : List T → Except E Unit)
    (e : E) (hb : s.buffer ≠ []) (he : sink s.buffer = .error e) :
    s.«end» sink =
      { result := .error (InserterError.new e), state := { s with buffer := [] },
        sink_calls := [s.buffer], observer_calls := [] } := by
  simp [Inserter.«end», flush_error_outcome s sink e hb he]

/-- `end` when the buffer is non-empty and the sink succeeds: the
successful flush, returning the updated cumulative `committed`. -/
theorem end_ok_outcome {T E : Type} (s : Inserter T) (sink : List T → Except E Unit)
    (hb : s.buffer ≠ []) (hok : sink s.buffer = .ok ()) :
    s.«end» sink =
      { result := .ok (s.committed + s.pending),
        state := { s with
                     buffer := [], committed := s.committed + s.pending,
                     pending := Quantities.ZERO, in_transaction := false },
        sink_calls := [s.buffer],
        observer_calls := if s.on_commit then [s.pending] else [] } := by
  simp [Inserter.«end», flush_ok_outcome s sink hb hok]


/-! ### Claim theorems -/

/-- C1: when the sink fails during a flush, the wrapped error propagates
and the Inserter's bookkeeping (pending, committed, in_transaction, and
the buffer — already taken, hence empty) is exactly the state as it was at
the moment the sink call attempted the batch: the flush is all-or-nothing
from the Inserter's bookkeeping perspective. -/
theorem flush_failure_preserves_state {T E : Type} (s : Inserter T)
    (sink : List T → Except E Unit) (e : E) (hb : s.buffer ≠ [])
    (he : sink s.buffer = .error e) :
    (s.flush sink).result = .error (InserterError.new e) ∧
    (s.flush sink).state.pending = s.pending ∧
    (s.flush sink).state.committed = s.committed ∧
    (s.flush sink).state.in_transaction = s.in_transaction ∧
    (s.flush sink).state = { s with buffer := [] } := by
  rw [flush_error_outcome s sink e hb he]
  exact ⟨rfl, rfl, rfl, rfl, rfl⟩

/-- Witness for C1 at a concrete state and failing sink. -/
theorem flush_failure_preserves_state_witness :
    (wState1.flush wSinkErr).result = .error (InserterError.new 7) ∧
    (wState1.flush wSinkErr).state.pending = wState1.pending ∧
    (wState1.flush wSinkErr).state.committed = wState1.committed ∧
    (wState1.flush wSinkErr).state.in_transaction = wState1.in_transaction ∧
    (wState1.flush wSinkErr).state = { wState1 with buffer := [] } :=
  flush_failure_preserves_state wState1 wSinkErr 7 (by decide) rfl

/-- C2: a flush of a non-empty buffer with a successful sink invokes the
sink exactly once with the whole buffered sequence, folds the captured
pending quantities into committed, resets pending to zero, clears
in_transaction, invokes the observer (exactly once, iff configured) with
the flushed quantities after the state updates, and returns the flushed
quantities. -/
theorem flush_success_commits {T E : Type} (s : Inserter T)
    (sink : List T → Except E Unit) (hb : s.buffer ≠ [])
    (hok : sink s.buffer = .ok ()) :
    (s.flush sink).sink_calls = [s.buffer] ∧
    (s.flush sink).result = .ok s.pending ∧
    (s.flush sink).state.committed = s.committed + s.pending ∧
    (s.flush sink).state.pending = Quantities.ZERO ∧
    (s.flush sink).state.in_transaction = false ∧
    (s.flush sink).observer_calls = (if s.on_commit then [s.pending] else []) := by
  rw [flush_ok_outcome s sink hb hok]
  exact ⟨rfl, rfl, rfl, rfl, rfl, rfl⟩

/-- Witness for C2 at a concrete state with a configured observer. -/
theorem flush_success_commits_witness :
    (wState3.flush wSinkOk).sink_calls = [wState3.buffer] ∧
    (wState3.flush wSinkOk).result = .ok wState3.pending ∧
    (wState3.flush wSinkOk).state.committed = wState3.committed + wState3.pending ∧
    (wState3.flush wSinkOk).state.pending = Quantities.ZERO ∧
    (wState3.flush wSinkOk).state.in_transaction = false ∧
    (wState3.flush wSinkOk).observer_calls =
      (if wState3.on_commit then [wState3.pending] else []) :=
  flush_success_commits wState3 wSinkOk (by decide) rfl

/-- C4: when the sink fails during a flush performed by `force_commit` or
`end` (unconditionally), or by `commit` when the limits are reached (the
only case in which `commit` flushes at all), the wrapped failure surfaces
immediately, the sink was invoked exactly once (no retry), and at that
point the buffer has already been taken (empty) while committed totals are
unchanged. -/
theorem sink_failure_surfaces_once {T E : Type} (s : Inserter T)
    (sink : List T → Except E Unit) (e : E) (now u : ℚ) (hb : s.buffer ≠ [])
    (he : sink s.buffer = .error e) :
    (s.limits_reached now = true →
      (s.commit sink now u).result = .error (InserterError.new e) ∧
      (s.commit sink now u).sink_calls = [s.buffer] ∧
      (s.commit sink now u).state.buffer = [] ∧
      (s.commit sink now u).state.committed = s.committed) ∧
    ((s.force_commit sink now u).result = .error (InserterError.new e) ∧
      (s.force_commit sink now u).sink_calls = [s.buffer] ∧
      (s.force_commit sink now u).state.buffer = [] ∧
      (s.force_commit sink now u).state.committed = s.committed) ∧
    ((s.«end» sink).result = .error (InserterError.new e) ∧
      (s.«end» sink).sink_calls = [s.buffer] ∧
      (s.«end» sink).state.buffer = [] ∧
      (s.«end» sink).state.committed = s.committed) := by
  have hf := force_commit_error_outcome s sink e now u hb he
  have hd := end_error_outcome s sink e hb he
  refine ⟨fun hl => ?_, ?_, ?_⟩
  · rw [commit_forced s sink now u hl, hf]
    exact ⟨rfl, rfl, rfl, rfl⟩
  · rw [hf]
    exact ⟨rfl, rfl, rfl, rfl⟩
  · rw [hd]
    exact ⟨rfl, rfl, rfl, rfl⟩

/-- Witness for C4 at a concrete state whose row limit is reached, so the
`commit` branch is exercised as well. -/
theorem sink_failure_surfaces_once_witness :
    (wState2.limits_reached 0 = true →
      (wState2.commit wSinkErr 0 0).result = .error (InserterError.new 7) ∧
      (wState2.commit wSinkErr 0 0).sink_calls = [wState2.buffer] ∧
      (wState2.commit wSinkErr 0 0).state.buffer = [] ∧
      (wState2.commit wSinkErr 0 0).state.committed = wState2.committed) ∧
    ((wState2.force_commit wSinkErr 0 0).result = .error (InserterError.new 7) ∧
      (wState2.force_commit wSinkErr 0 0).sink_calls = [wState2.buffer] ∧
      (wState2.force_commit wSinkErr 0 0).state.buffer = [] ∧
      (wState2.force_commit wSinkErr 0 0).state.committed = wState2.committed) ∧
    ((wState2.«end» wSinkErr).result = .error (InserterError.new 7) ∧
      (wState2.«end» wSinkErr).sink_calls = [wState2.buffer] ∧
      (wState2.«end» wSinkErr).state.buffer = [] ∧
      (wState2.«end» wSinkErr).state.committed = wState2.committed) :=
  sink_failure_surfaces_once wState2 wSinkErr 7 0 0 (by decide) rfl

/-- C7: `force_commit` on an empty buffer returns `ZERO`, never invokes
the sink or the observer, leaves committed totals and in_transaction
untouched, and still reschedules the `Ticks` deadline. -/
theorem force_commit_empty_reschedules {T E : Type} (s : Inserter T)
    (sink : List T → Except E Unit) (now u : ℚ) (hb : s.buffer = []) :
    s.force_commit sink now u =
      { result := .ok Quantities.ZERO,
        state := { s with ticks := s.ticks.reschedule now u },
        sink_calls := [], observer_calls := [] } := by
  simp [Inserter.force_commit, flush_empty_outcome s sink hb]

/-- Witness for C7 on a fresh empty inserter. -/
theorem force_commit_empty_reschedules_witness :
    (Inserter.new (T := Nat)).force_commit wSinkOk 0 0 =
      { result := .ok Quantities.ZERO,
        state := { Inserter.new (T := Nat) with
                     ticks := (Inserter.new (T := Nat)).ticks.reschedule 0 0 },
        sink_calls := [], observer_calls := [] } :=
  force_commit_empty_reschedules (Inserter.new (T := Nat)) wSinkOk 0 0 rfl

/-- C6: a run of N >= 1 consecutive writes with no intervening flush
(starting outside a transaction) increments `pending.transactions` by
exactly 1 — not N — while incrementing `pending.rows` by exactly N. -/
theorem transaction_counted_once {T : Type} (s : Inserter T) (items : List T) (now u : ℚ)
    (h0 : s.in_transaction = false) (hne : items ≠ []) :
    (runWrites s items now u).pending.transactions = s.pending.transactions + 1 ∧
    (runWrites s items now u).pending.rows = s.pending.rows + items.length := by
  constructor
  · cases items with
    | nil => exact absurd rfl hne
    | cons it rest =>
      have h1 := write_owned_transactions_of_not_in s it now u h0
      have h2 := write_owned_in_transaction s it now u
      have h3 := (runWrites_transactions_of_in rest (s.write_owned it now u) now u h2).1
      show (runWrites (s.write_owned it now u) rest now u).pending.transactions = _
      rw [h3, h1]
  · exact runWrites_rows items s now u

/-- Witness for C6: three writes into a fresh inserter. -/
theorem transaction_counted_once_witness :
    (runWrites (Inserter.new (T := Nat)) [1, 2, 3] 0 0).pending.transactions =
      (Inserter.new (T := Nat)).pending.transactions + 1 ∧
    (runWrites (Inserter.new (T := Nat)) [1, 2, 3] 0 0).pending.rows =
      (Inserter.new (T := Nat)).pending.rows + [1, 2, 3].length :=
  transaction_counted_once (Inserter.new (T := Nat)) [1, 2, 3] 0 0 rfl (by decide)

/-- C3: starting from a fresh inserter with `max_rows = N` (N >= 1) and no
period, after any sequence of writes: while pending rows < N, `commit`
returns zero quantities, performs no sink or observer invocation, leaves
buffer and pending unchanged, and clears `in_transaction`; once pending
rows >= N (and the sink accepts the batch), `commit` flushes exactly the
buffered items through the sink and resets pending to zero. -/
theorem commit_row_threshold {T E : Type} (N : Nat) (items : List T) (now u now2 u2 : ℚ)
    (sink : List T → Except E Unit) (s : Inserter T) (hN : 0 < N)
    (hs : s = runWrites ((Inserter.new (T := T)).with_max_rows N) items now u) :
    (s.pending.rows < N →
      s.commit sink now2 u2 =
        { result := .ok Quantities.ZERO, state := { s with in_transaction := false },
          sink_calls := [], observer_calls := [] }) ∧
    (N ≤ s.pending.rows → sink s.buffer = .ok () →
      s.buffer = items ∧
      (s.commit sink now2 u2).sink_calls = [s.buffer] ∧
      (s.commit sink now2 u2).state.pending = Quantities.ZERO ∧
      (s.commit sink now2 u2).result = .ok s.pending) := by
  subst hs
  have hmax : (runWrites ((Inserter.new (T := T)).with_max_rows N) items now u).max_rows = N := by
    rw [runWrites_max_rows]; rfl
  have hticks : (runWrites ((Inserter.new (T := T)).with_max_rows N) items now u).ticks =
      ((Inserter.new (T := T)).with_max_rows N).ticks :=
    runWrites_ticks_of_period_none items _ now u rfl
  have hreach : (runWrites ((Inserter.new (T := T)).with_max_rows N) items now u).ticks.reached
      now2 = false := by
    rw [hticks]; rfl
  have hbuf : (runWrites ((Inserter.new (T := T)).with_max_rows N) items now u).buffer = items := by
    rw [runWrites_buffer]; rfl
  have hrows : (runWrites ((Inserter.new (T := T)).with_max_rows N) items now u).pending.rows =
      items.length := by
    rw [runWrites_rows]
    simp [Inserter.with_max_rows, Inserter.new, Quantities.ZERO]
  constructor
  · intro hlt
    rw [hrows] at hlt
    have hl : (runWrites ((Inserter.new (T := T)).with_max_rows N) items now
        u).limits_reached now2 = false := by
      simp [Inserter.limits_reached, hreach, hmax, hrows, Nat.not_le.mpr hlt]
    exact commit_noop_outcome _ sink now2 u2 hl
  · intro hge hok
    rw [hrows] at hge
    have hl : (runWrites ((Inserter.new (T := T)).with_max_rows N) items now
        u).limits_reached now2 = true := by
      simp [Inserter.limits_reached, hmax, hrows, hge]
    have hbne : (runWrites ((Inserter.new (T := T)).with_max_rows N) items now u).buffer ≠ [] := by
      rw [hbuf]
      exact List.length_pos.mp (Nat.lt_of_lt_of_le hN hge)
    rw [commit_forced _ sink now2 u2 hl, force_commit_ok_outcome _ sink now2 u2 hbne hok]
    exact ⟨hbuf, rfl, rfl, rfl⟩

/-- Witness for C3: two writes with `max_rows = 2`; the threshold is
reached and commit flushes both items. -/
theorem commit_row_threshold_witness :
    (wRun3.pending.rows < 2 →
      wRun3.commit wSinkOk 0 0 =
        { result := .ok Quantities.ZERO, state := { wRun3 with in_transaction := false },
          sink_calls := [], observer_calls := [] }) ∧
    (2 ≤ wRun3.pending.rows → wSinkOk wRun3.buffer = .ok () →
      wRun3.buffer = [10, 20] ∧
      (wRun3.commit wSinkOk 0 0).sink_calls = [wRun3.buffer] ∧
      (wRun3.commit wSinkOk 0 0).state.pending = Quantities.ZERO ∧
      (wRun3.commit wSinkOk 0 0).result = .ok wRun3.pending) :=
  commit_row_threshold 2 [10, 20] 0 0 0 0 wSinkOk wRun3 (by decide) rfl

@[simp] theorem Ticks.reschedule_period (t : Ticks) (now u : ℚ) :
    (t.reschedule now u).period = t.period := by
  cases h : t.period <;> simp [Ticks.reschedule, h]

@[simp] theorem Ticks.start_period (t : Ticks) (now u : ℚ) :
    (t.start now u).period = t.period := by
  unfold Ticks.start
  split
  · simp
  · rfl

theorem stepTicks_inv (t : Ticks) (op : TOp) (h : t.period = none → t.next_at = none) :
    (stepTicks t op).period = none → (stepTicks t op).next_at = none := by
  cases op with
  | with_period p => intro hp; simp [stepTicks, Ticks.with_period] at hp
  | with_bias b =>
    intro hp
    have := h (by simpa [stepTicks, Ticks.with_bias] using hp)
    simpa [stepTicks, Ticks.with_bias] using this
  | start now u =>
    intro hp
    rw [show (stepTicks t (.start now u)) = t.start now u from rfl] at hp ⊢
    rw [Ticks.start_period] at hp
    rw [Ticks.start_of_period_none hp now u]
    exact h hp
  | reschedule now u =>
    intro hp
    rw [show (stepTicks t (.reschedule now u)) = t.reschedule now u from rfl] at hp ⊢
    rw [Ticks.reschedule_period] at hp
    simp [Ticks.reschedule, hp]
    exact h hp

theorem foldl_stepTicks_inv (ops : List TOp) (t : Ticks) (h : t.period = none → t.next_at = none) :
    (ops.foldl stepTicks t).period = none → (ops.foldl stepTicks t).next_at = none := by
  induction ops generalizing t with
  | nil => simpa
  | cons op rest ih => simpa [List.foldl_cons] using ih (stepTicks t op) (stepTicks_inv t op h)

/-- C8: for every `Ticks` value reachable (from `Ticks::new` by any
sequence of `with_period`, `with_bias`, `start`, `reschedule`) whose
period is unset, `next_at` is unset, `reached` is false and `time_left` is
`None`, and `start`/`reschedule` leave the value unchanged: no operation
can arm a deadline when no period is configured. -/
theorem ticks_unset_period_invariant (ops : List TOp) (now u : ℚ)
    (hp : (runTicks ops).period = none) :
    (runTicks ops).next_at = none ∧
    (runTicks ops).reached now = false ∧
    (runTicks ops).time_left now = none ∧
    (runTicks ops).start now u = runTicks ops ∧
    (runTicks ops).reschedule now u = runTicks ops := by
  have hn : (runTicks ops).next_at = none :=
    foldl_stepTicks_inv ops Ticks.new (fun _ => rfl) hp
  refine ⟨hn, ?_, ?_, Ticks.start_of_period_none hp now u, ?_⟩
  · simp [Ticks.reached, hn]
  · simp [Ticks.time_left, hn]
  · simp [Ticks.reschedule, hp]

/-- Witness for C8: a `start` on a periodless `Ticks` arms nothing. -/
theorem ticks_unset_period_invariant_witness :
    (runTicks [TOp.start 1 0]).next_at = none ∧
    (runTicks [TOp.start 1 0]).reached 2 = false ∧
    (runTicks [TOp.start 1 0]).time_left 2 = none ∧
    (runTicks [TOp.start 1 0]).start 2 0 = runTicks [TOp.start 1 0] ∧
    (runTicks [TOp.start 1 0]).reschedule 2 0 = runTicks [TOp.start 1 0] :=
  ticks_unset_period_invariant [TOp.start 1 0] 2 0 rfl

/-- C9: with period P and bias b, the deadline armed by `reschedule` is
`now` plus an effective period that lies within `[P*(1-b), P*(1+b)]`
(where `u`, the uniform sample from `[-b, b]`, is arbitrary within its
range); with `b = 0` the effective period is exactly P. -/
theorem reschedule_jitter_bound (t : Ticks) (P now u : ℚ) (hp : t.period = some P)
    (hP : 0 ≤ P) (hb : 0 ≤ t.bias) (hu1 : -t.bias ≤ u) (hu2 : u ≤ t.bias) :
    (t.reschedule now u).next_at = some (now + Ticks.apply_bias t.bias P u) ∧
    P * (1 - t.bias) ≤ Ticks.apply_bias t.bias P u ∧
    Ticks.apply_bias t.bias P u ≤ P * (1 + t.bias) ∧
    (t.bias = 0 → Ticks.apply_bias t.bias P u = P) := by
  refine ⟨by simp [Ticks.reschedule, hp], ?_, ?_, fun h0 => by simp [Ticks.apply_bias, h0]⟩
  · by_cases h0 : t.bias = 0
    · have hA : Ticks.apply_bias t.bias P u = P := by simp [Ticks.apply_bias, h0]
      rw [hA, h0]
      nlinarith
    · simp only [Ticks.apply_bias, if_neg h0]
      nlinarith [mul_nonneg hP (show (0 : ℚ) ≤ t.bias + u by linarith)]
  · by_cases h0 : t.bias = 0
    · have hA : Ticks.apply_bias t.bias P u = P := by simp [Ticks.apply_bias, h0]
      rw [hA, h0]
      nlinarith
    · simp only [Ticks.apply_bias, if_neg h0]
      nlinarith [mul_nonneg hP (show (0 : ℚ) ≤ t.bias - u by linarith)]

/-- Witness for C9 at period 1, bias 1, sample 0. -/
theorem reschedule_jitter_bound_witness :
    (((Ticks.new.with_period 1).with_bias 1).reschedule 0 0).next_at =
      some (0 + Ticks.apply_bias ((Ticks.new.with_period 1).with_bias 1).bias 1 0) ∧
    1 * (1 - ((Ticks.new.with_period 1).with_bias 1).bias) ≤
      Ticks.apply_bias ((Ticks.new.with_period 1).with_bias 1).bias 1 0 ∧
    Ticks.apply_bias ((Ticks.new.with_period 1).with_bias 1).bias 1 0 ≤
      1 * (1 + ((Ticks.new.with_period 1).with_bias 1).bias) ∧
    (((Ticks.new.with_period 1).with_bias 1).bias = 0 →
      Ticks.apply_bias ((Ticks.new.with_period 1).with_bias 1).bias 1 0 = 1) :=
  reschedule_jitter_bound ((Ticks.new.with_period 1).with_bias 1) 1 0 0 rfl zero_le_one
    (by exact zero_le_one) (by exact neg_nonpos.mpr zero_le_one) (by exact zero_le_one)

theorem sumQ_append (a b : List Quantities) : sumQ (a ++ b) = sumQ a + sumQ b := by
  induction a with
  | nil => simp [sumQ]
  | cons q rest ih => simp [sumQ, ih, Quantities.add_assoc]

theorem flush_state_committed {T E : Type} (s : Inserter T) (sink : List T → Except E Unit) :
    (s.flush sink).state.committed =
      s.committed + sumQ (match (s.flush sink).result with | .ok q => [q] | .error _ => []) := by
  by_cases hb : s.buffer = []
  · rw [flush_empty_outcome s sink hb]; simp [sumQ]
  · cases hsink : sink s.buffer with
    | ok v => cases v; rw [flush_ok_outcome s sink hb hsink]; simp [sumQ]
    | error e => rw [flush_error_outcome s sink e hb hsink]; simp [sumQ]

theorem flush_state_pending {T E : Type} (s : Inserter T) (sink : List T → Except E Unit) :
    (s.flush sink).state.pending = s.pending ∨
      (s.flush sink).state.pending = Quantities.ZERO := by
  by_cases hb : s.buffer = []
  · rw [flush_empty_outcome s sink hb]; left; rfl
  · cases hsink : sink s.buffer with
    | ok v => cases v; rw [flush_ok_outcome s sink hb hsink]; right; rfl
    | error e => rw [flush_error_outcome s sink e hb hsink]; left; rfl

theorem force_commit_result_eq {T E : Type} (s : Inserter T) (sink : List T → Except E Unit)
    (now u : ℚ) : (s.force_commit sink now u).result = (s.flush sink).result := by
  unfold Inserter.force_commit
  cases h : (s.flush sink).result with
  | error e => simp [h]
  | ok q => simp [h]

theorem force_commit_state_committed {T E : Type} (s : Inserter T)
    (sink : List T → Except E Unit) (now u : ℚ) :
    (s.force_commit sink now u).state.committed = (s.flush sink).state.committed := by
  unfold Inserter.force_commit
  cases h : (s.flush sink).result with
  | error e => simp [h]
  | ok q => simp [h]

theorem force_commit_state_pending {T E : Type} (s : Inserter T)
    (sink : List T → Except E Unit) (now u : ℚ) :
    (s.force_commit sink now u).state.pending = (s.flush sink).state.pending := by
  unfold Inserter.force_commit
  cases h : (s.flush sink).result with
  | error e => simp [h]
  | ok q => simp [h]

theorem stepState_committed {T E : Type} (s : Inserter T) (op : InsOp T E) :
    (stepState s op).committed = s.committed + sumQ (stepFlushed s op) := by
  cases op with
  | write it now u => simp [stepState, stepFlushed, sumQ]
  | flush sink => exact flush_state_committed s sink
  | force_commit sink now u =>
    show (s.force_commit sink now u).state.committed = _
    rw [force_commit_state_committed s sink now u, flush_state_committed s sink]
    have hres := force_commit_result_eq s sink now u
    rw [show stepFlushed s (InsOp.force_commit sink now u) =
      (match (s.force_commit sink now u).result with
        | .ok q => [q] | .error _ => []) from rfl, hres]
  | commit sink now u =>
    cases hl : s.limits_reached now with
    | false =>
      rw [show stepState s (InsOp.commit sink now u) = (s.commit sink now u).state from rfl]
      rw [show stepFlushed s (InsOp.commit sink now u) =
        (match (s.commit sink now u).result with | .ok q => [q] | .error _ => []) from rfl]
      rw [commit_noop_outcome s sink now u hl]
      simp [sumQ]
    | true =>
      rw [show stepState s (InsOp.commit sink now u) = (s.commit sink now u).state from rfl]
      rw [show stepFlushed s (InsOp.commit sink now u) =
        (match (s.commit sink now u).result with | .ok q => [q] | .error _ => []) from rfl]
      rw [commit_forced s sink now u hl, force_commit_state_committed s sink now u,
        force_commit_result_eq s sink now u, flush_state_committed s sink]

theorem runIns_committed {T E : Type} (ops : List (InsOp T E)) (s : Inserter T) :
    (runIns s ops).committed = s.committed + sumQ (runFlushed s ops) := by
  induction ops generalizing s with
  | nil => simp [runIns, runFlushed, sumQ]
  | cons op rest ih =>
    show (runIns (stepState s op) rest).committed = _
    rw [ih (stepState s op), stepState_committed s op,
      show runFlushed s (op :: rest) =
        stepFlushed s op ++ runFlushed (stepState s op) rest from rfl,
      sumQ_append, Quantities.add_assoc]

theorem stepState_pending_le {T E : Type} (s : Inserter T) (op : InsOp T E)
    (h : s.pending.transactions ≤ s.pending.rows) :
    (stepState s op).pending.transactions ≤ (stepState s op).pending.rows := by
  cases op with
  | write it now u =>
    rw [show stepState s (InsOp.write it now u) = s.write_owned it now u from rfl]
    cases h0 : s.in_transaction
    · rw [write_owned_rows, write_owned_transactions_of_not_in s it now u h0]
      omega
    · rw [write_owned_rows, write_owned_transactions_of_in s it now u h0]
      omega
  | flush sink =>
    rw [show stepState s (InsOp.flush sink) = (s.flush sink).state from rfl]
    rcases flush_state_pending s sink with hp | hp <;> rw [hp]
    · exact h
    · exact Nat.le_refl 0
  | force_commit sink now u =>
    rw [show stepState s (InsOp.force_commit sink now u) =
      (s.force_commit sink now u).state from rfl, force_commit_state_pending s sink now u]
    rcases flush_state_pending s sink with hp | hp <;> rw [hp]
    · exact h
    · exact Nat.le_refl 0
  | commit sink now u =>
    rw [show stepState s (InsOp.commit sink now u) = (s.commit sink now u).state from rfl]
    cases hl : s.limits_reached now with
    | false => rw [commit_noop_outcome s sink now u hl]; exact h
    | true =>
      rw [commit_forced s sink now u hl, force_commit_state_pending s sink now u]
      rcases flush_state_pending s sink with hp | hp <;> rw [hp]
      · exact h
      · exact Nat.le_refl 0

theorem runIns_pending_le {T E : Type} (ops : List (InsOp T E)) (s : Inserter T)
    (h : s.pending.transactions ≤ s.pending.rows) :
    (runIns s ops).pending.transactions ≤ (runIns s ops).pending.rows := by
  induction ops generalizing s with
  | nil => simpa [runIns]
  | cons op rest ih =>
    show (runIns (stepState s op) rest).pending.transactions ≤ _
    exact ih (stepState s op) (stepState_pending_le s op h)

theorem configured_pending {T : Type} (n : Nat) (p : Option ℚ) (b : ℚ) (cb : Bool) :
    (Inserter.configured (T := T) n p b cb).pending = Quantities.ZERO := by
  cases p <;> cases cb <;> rfl

theorem configured_committed {T : Type} (n : Nat) (p : Option ℚ) (b : ℚ) (cb : Bool) :
    (Inserter.configured (T := T) n p b cb).committed = Quantities.ZERO := by
  cases p <;> cases cb <;> rfl

/-- C5: after any run of operations from a freshly configured inserter,
`end` on a non-empty buffer with a succeeding sink invokes the sink
exactly once with all buffered items and returns committed totals equal to
the sum of the quantities of all prior successful flushes plus those of
this final flush. -/
theorem end_returns_total {T E : Type} (n : Nat) (p : Option ℚ) (b : ℚ) (cb : Bool)
    (ops : List (InsOp T E)) (sink : List T → Except E Unit) (s : Inserter T)
    (hs : s = runIns (Inserter.configured n p b cb) ops)
    (hb : s.buffer ≠ []) (hok : sink s.buffer = .ok ()) :
    (s.«end» sink).sink_calls = [s.buffer] ∧
    (s.«end» sink).result =
      .ok (sumQ (runFlushed (Inserter.configured n p b cb) ops) + s.pending) := by
  have hcom : s.committed = sumQ (runFlushed (Inserter.configured n p b cb) ops) := by
    rw [hs, runIns_committed, configured_committed, Quantities.zero_add]
  rw [end_ok_outcome s sink hb hok]
  exact ⟨rfl, by rw [hcom]⟩

/-- Witness for C5: two writes, then `end`. -/
theorem end_returns_total_witness :
    (wRun5.«end» wSinkOk).sink_calls = [wRun5.buffer] ∧
    (wRun5.«end» wSinkOk).result =
      .ok (sumQ (runFlushed (Inserter.configured 10 none 0 false) wOps) + wRun5.pending) :=
  end_returns_total 10 none 0 false wOps wSinkOk wRun5 rfl (by decide) rfl

/-- C10: in every state reachable by construction (with any configuration)
followed by any sequence of write / commit / force_commit / flush
operations — including flushes where the sink fails —
`pending.transactions <= pending.rows`; in particular, if the pending
quantities are `is_empty` (rows = 0) there is no uncounted open
transaction (`transactions = 0`). -/
theorem pending_transactions_le_rows {T E : Type} (n : Nat) (p : Option ℚ) (b : ℚ) (cb : Bool)
    (ops : List (InsOp T E)) (s : Inserter T)
    (hs : s = runIns (Inserter.configured n p b cb) ops) :
    s.pending.transactions ≤ s.pending.rows ∧
    (s.pending.is_empty = true → s.pending.transactions = 0) := by
  have hle : s.pending.transactions ≤ s.pending.rows := by
    rw [hs]
    exact runIns_pending_le ops _ (by rw [configured_pending]; exact Nat.le_refl 0)
  refine ⟨hle, fun he => ?_⟩
  have hr : s.pending.rows = 0 := by simpa [Quantities.is_empty] using he
  omega

/-- Witness for C10: a trace that includes a failing flush. -/
theorem pending_transactions_le_rows_witness :
    (runIns (Inserter.configured 10 none 0 false)
      (wOps ++ [.flush wSinkErr, .write 3 0 0])).pending.transactions ≤
      (runIns (Inserter.configured 10 none 0 false)
        (wOps ++ [.flush wSinkErr, .write 3 0 0])).pending.rows ∧
    ((runIns (Inserter.configured 10 none 0 false)
      (wOps ++ [.flush wSinkErr, .write 3 0 0])).pending.is_empty = true →
      (runIns (Inserter.configured 10 none 0 false)
        (wOps ++ [.flush wSinkErr, .write 3 0 0])).pending.transactions = 0) :=
  pending_transactions_le_rows 10 none 0 false (wOps ++ [.flush wSinkErr, .write 3 0 0]) _ rfl
